import Mathlib

/-!
Verification of the filtering and aggregation engine of the sales data
dashboard (`src/sales_data_dashboard.py`).

The embedding below mirrors the source:
* `Record` is one row of the generated dataframe (`generate_sales_data`),
  with `revenue` stored at construction time (`mk_record`, line 50 of the
  source: `revenue = price * quantity * (1 - discount)`), and dates encoded
  as day offsets (`Nat`) since calendar dates are totally ordered and only
  compared with `≤`, `≥`, `==` in the source.
* `Filters` holds the sidebar selections consumed by `apply_filters`
  (lines 116-141): the sentinel string `"All"` means "no constraint".
* `normalize_date_range` is the date-input normalization of lines 94-100.
* `calculate_kpis` is lines 143-169.
* `groupby_sum` models the pandas `df.groupby(key)[col].sum()` pattern used
  by `create_visualizations` (e.g. line 249 for category revenue): one
  entry per distinct key, holding the sum of the column over that group.
-/

structure Record where
  sale_id : Nat
  category : String
  region : String
  date : Nat
  price : Rat
  quantity : Nat
  discount : Rat
  revenue : Rat
  returned : Bool
deriving DecidableEq

/-- Line 50: `revenue = price * quantity * (1 - discount)`, fixed at
construction time. -/
def mk_record (sale_id : Nat) (category region : String) (date : Nat)
    (price : Rat) (quantity : Nat) (discount : Rat) (returned : Bool) : Record :=
  ⟨sale_id, category, region, date, price, quantity, discount,
    price * (quantity : Rat) * (1 - discount), returned⟩

/-- Line 67: `return_status` is the string rendering of the `returned` flag. -/
def return_status (r : Record) : String :=
  if r.returned then "Returned" else "Not Returned"

/-- The sidebar selections handed to the filtering block of `apply_filters`. -/
structure Filters where
  selected_category : String
  selected_region : String
  date_range : List Nat
  min_price : Rat
  max_price : Rat
  selected_return : String
deriving DecidableEq

/-- The raw value returned by the date control: either a list/tuple of dates
or a single scalar date (lines 94-98 distinguish exactly these shapes). -/
inductive DateInput where
  | ofList (ds : List Nat)
  | ofScalar (d : Nat)
deriving DecidableEq

/-- Lines 95-98: a one-element list becomes `[d, d]`, a scalar becomes
`[d, d]`, anything else is passed through unchanged. -/
def normalize_date_range : DateInput → List Nat
  | .ofList ds => if ds.length == 1 then [ds.headD 0, ds.headD 0] else ds
  | .ofScalar d => [d, d]

/-- Lines 116-141 of `apply_filters`: the pure filtering block, applied in
source order: category, region, date range (branching on the length of
`date_range` as lines 125-131 do), price range, return status. -/
def apply_filters (df : List Record) (f : Filters) : List Record :=
  let d1 : List Record := if f.selected_category = "All" then df
    else df.filter (fun r => r.category == f.selected_category)
  let d2 : List Record := if f.selected_region = "All" then d1
    else d1.filter (fun r => r.region == f.selected_region)
  let d3 : List Record := match f.date_range with
    | lo :: hi :: _ =>
        d2.filter (fun r => decide (lo ≤ r.date) && decide (r.date ≤ hi))
    | [d] => d2.filter (fun r => r.date == d)
    | [] => d2
  let d4 : List Record := d3.filter (fun r =>
    decide (f.min_price ≤ r.price) && decide (r.price ≤ f.max_price))
  if f.selected_return = "All" then d4
  else d4.filter (fun r => return_status r == f.selected_return)

/-- The KPI bundle returned by `calculate_kpis` (lines 146-153 and 162-169). -/
structure Kpis where
  total_sales : Nat
  total_revenue : Rat
  avg_order_value : Rat
  return_rate : Rat
  avg_discount : Rat
  total_quantity : Nat
deriving DecidableEq

/-- Lines 143-169: all-zero bundle on empty input, else count, sums and
means over the dataframe columns; `df['returned'].sum()` sums the 0/1
indicator column. -/
def calculate_kpis (df : List Record) : Kpis :=
  if df.length = 0 then ⟨0, 0, 0, 0, 0, 0⟩
  else
    ⟨df.length,
     (df.map (fun r => r.revenue)).sum,
     (df.map (fun r => r.revenue)).sum / (df.length : Rat),
     ((df.map (fun r => if r.returned then (1 : Rat) else 0)).sum / (df.length : Rat)) * 100,
     ((df.map (fun r => r.discount)).sum / (df.length : Rat)) * 100,
     (df.map (fun r => r.quantity)).sum⟩

/-- `df.groupby(key)[val].sum()`: one entry per distinct key value, paired
with the sum of `val` over the rows of that group. -/
def groupby_sum (key : Record → String) (val : Record → Rat)
    (df : List Record) : List (String × Rat) :=
  ((df.map key).dedup).map
    (fun k => (k, ((df.filter (fun r => key r == k)).map val).sum))

/-- The three-record scenario of the spec (§8): record 1. -/
def scenarioRec1 : Record := mk_record 1 "Electronics" "North" 4 100 2 (1/10) false

/-- The three-record scenario of the spec (§8): record 2. -/
def scenarioRec2 : Record := mk_record 2 "Clothing" "South" 9 50 1 0 true

/-- The three-record scenario of the spec (§8): record 3. -/
def scenarioRec3 : Record := mk_record 3 "Electronics" "East" 31 200 1 (1/5) false

/-- The three-record scenario set R of the spec (§8). -/
def scenarioRecords : List Record := [scenarioRec1, scenarioRec2, scenarioRec3]

/-- The conjunction of all five predicates of `apply_filters`, as a single
boolean on one record (the date clause mirrors the length branching of
lines 125-131). -/
def matches_filters (f : Filters) (r : Record) : Bool :=
  (decide (f.selected_category = "All") || r.category == f.selected_category) &&
  ((decide (f.selected_region = "All") || r.region == f.selected_region) &&
  ((match f.date_range with
    | lo :: hi :: _ => decide (lo ≤ r.date) && decide (r.date ≤ hi)
    | [d] => r.date == d
    | [] => true) &&
  ((decide (f.min_price ≤ r.price) && decide (r.price ≤ f.max_price)) &&
  (decide (f.selected_return = "All") || return_status r == f.selected_return))))

theorem filter_stage_if {c : Prop} [Decidable c] (l : List Record) (p : Record → Bool) :
    (if c then l else l.filter p) = l.filter (fun a => decide c || p a) := by
  by_cases h : c
  · simp [h]
  · simp [h]

/-- The sequential filter chain of `apply_filters` collapses to one `filter`
by the conjunction `matches_filters`. -/
theorem apply_filters_eq_filter (df : List Record) (f : Filters) :
    apply_filters df f = df.filter (matches_filters f) := by
  unfold apply_filters matches_filters
  rcases hdr : f.date_range with _ | ⟨lo, _ | ⟨hi, rest⟩⟩ <;>
  by_cases h1 : f.selected_category = "All" <;>
  by_cases h2 : f.selected_region = "All" <;>
  by_cases h5 : f.selected_return = "All" <;>
  simp [h1, h2, h5, List.filter_filter] <;>
  refine List.filter_congr (fun a _ => ?_) <;>
  rw [Bool.eq_iff_iff] <;>
  simp [Bool.and_eq_true, Bool.or_eq_true, decide_eq_true_eq] <;>
  tauto

/-- C2: `calculate_kpis` applied to the empty record list returns the KPI
bundle whose six fields are all zero; it is a total function, so no
undefined value, NaN or error can arise on empty input. -/
theorem calculate_kpis_empty : calculate_kpis [] = ⟨0, 0, 0, 0, 0, 0⟩ := rfl

/-- C7: filtering is idempotent: applying `apply_filters` with the same
constraint set to its own output returns that output unchanged. -/
theorem apply_filters_idempotent (R : List Record) (f : Filters) :
    apply_filters (apply_filters R f) f = apply_filters R f := by
  simp only [apply_filters_eq_filter, List.filter_filter]
  exact List.filter_congr (fun a _ => Bool.and_self _)

/-- C5: a malformed date input carrying a single bound D — a one-element
list or a bare scalar — is normalized to the single-day range [D, D] (no
exception is possible: `normalize_date_range` is total), and filtering any
record list with the normalized constraint set equals filtering it with
the well-formed degenerate range whose lower and upper bounds are both D. -/
theorem normalize_single_bound_same_filter (R : List Record) (D : Nat)
    (cat reg ret : String) (plo phi : Rat) :
    normalize_date_range (DateInput.ofList [D]) = [D, D] ∧
    normalize_date_range (DateInput.ofScalar D) = [D, D] ∧
    apply_filters R ⟨cat, reg, normalize_date_range (DateInput.ofList [D]), plo, phi, ret⟩ =
      apply_filters R ⟨cat, reg, [D, D], plo, phi, ret⟩ ∧
    apply_filters R ⟨cat, reg, normalize_date_range (DateInput.ofScalar D), plo, phi, ret⟩ =
      apply_filters R ⟨cat, reg, [D, D], plo, phi, ret⟩ :=
  ⟨rfl, rfl, rfl, rfl⟩

/-- C1: for a well-formed constraint set (date range `[lo, hi]` with
`lo ≤ hi`, price range with `min_price ≤ max_price`), `apply_filters`
returns a sublist of R (a subsequence in original relative order) whose
members are exactly those records of R satisfying every active predicate:
category equality unless the selector is "All", region equality unless
"All", inclusive date-range membership, inclusive price-range membership
at the exact boundaries, and return-status equality unless "All"; records
failing any active predicate are excluded. -/
theorem apply_filters_subsequence_sound (R : List Record) (f : Filters)
    (lo hi : Nat) (hd : f.date_range = [lo, hi]) (hdle : lo ≤ hi)
    (hple : f.min_price ≤ f.max_price) :
    (apply_filters R f).Sublist R ∧
    ∀ r : Record, r ∈ apply_filters R f ↔ r ∈ R ∧
      ((f.selected_category = "All" ∨ r.category = f.selected_category) ∧
      ((f.selected_region = "All" ∨ r.region = f.selected_region) ∧
      ((lo ≤ r.date ∧ r.date ≤ hi) ∧
      ((f.min_price ≤ r.price ∧ r.price ≤ f.max_price) ∧
      (f.selected_return = "All" ∨ return_status r = f.selected_return))))) := by
  constructor
  · rw [apply_filters_eq_filter]
    exact List.filter_sublist _
  · intro r
    rw [apply_filters_eq_filter, List.mem_filter]
    unfold matches_filters
    rw [hd]
    simp only [Bool.and_eq_true, Bool.or_eq_true, decide_eq_true_eq, beq_iff_eq]

/-- C1 witness: the subsequence-and-soundness theorem instantiated on the
three-record scenario with the Electronics category constraint. -/
theorem apply_filters_subsequence_sound_witness :
    (apply_filters scenarioRecords ⟨"Electronics", "All", [0, 40], 0, 1000, "All"⟩).Sublist
      scenarioRecords ∧
    ∀ r : Record,
      r ∈ apply_filters scenarioRecords ⟨"Electronics", "All", [0, 40], 0, 1000, "All"⟩ ↔
      r ∈ scenarioRecords ∧
      (("Electronics" = "All" ∨ r.category = "Electronics") ∧
      (("All" = "All" ∨ r.region = "All") ∧
      ((0 ≤ r.date ∧ r.date ≤ 40) ∧
      (((0 : Rat) ≤ r.price ∧ r.price ≤ (1000 : Rat)) ∧
      ("All" = "All" ∨ return_status r = "All"))))) :=
  apply_filters_subsequence_sound scenarioRecords
    ⟨"Electronics", "All", [0, 40], 0, 1000, "All"⟩ 0 40 rfl (by decide)
    (by with_unfolding_all decide)

theorem sum_returned_indicator_eq_count (df : List Record) :
    (df.map (fun r => if r.returned then (1 : Rat) else 0)).sum
      = ((df.filter (fun r => r.returned)).length : Rat) := by
  induction df with
  | nil => simp
  | cons r rs ih =>
    by_cases h : r.returned <;>
      simp [List.filter_cons, h, ih] <;> push_cast <;> ring

/-- C3: on any non-empty record list, `calculate_kpis` returns the count,
the revenue sum, the revenue mean, 100 × returned-count / count,
100 × the mean discount fraction, and the quantity sum; on the two
Electronics records of the spec scenario it returns total_sales = 2,
total_revenue = 340, avg_order_value = 170, return_rate = 0,
avg_discount = 15, total_quantity = 3. -/
theorem calculate_kpis_nonempty :
    (∀ df : List Record, df ≠ [] →
      calculate_kpis df =
        ⟨df.length,
         (df.map (fun r => r.revenue)).sum,
         (df.map (fun r => r.revenue)).sum / (df.length : Rat),
         100 * ((df.filter (fun r => r.returned)).length : Rat) / (df.length : Rat),
         100 * ((df.map (fun r => r.discount)).sum / (df.length : Rat)),
         (df.map (fun r => r.quantity)).sum⟩) ∧
    calculate_kpis [scenarioRec1, scenarioRec3] = ⟨2, 340, 170, 0, 15, 3⟩ := by
  constructor
  · intro df hne
    unfold calculate_kpis
    rw [if_neg (by simpa using hne)]
    simp only [Kpis.mk.injEq, true_and, and_true, eq_self_iff_true]
    refine ⟨?_, ?_⟩
    · rw [sum_returned_indicator_eq_count df]
      ring
    · ring
  · with_unfolding_all decide

/-- C3 witness: the non-empty KPI formula theorem applied to the concrete
two-record Electronics subset of the scenario, hypothesis discharged there,
and the result evaluated to the claimed bundle (2, 340, 170, 0, 15, 3). -/
theorem calculate_kpis_nonempty_witness :
    calculate_kpis [scenarioRec1, scenarioRec3] = ⟨2, 340, 170, 0, 15, 3⟩ := by
  have h := calculate_kpis_nonempty.1 [scenarioRec1, scenarioRec3] (by simp)
  rw [h]
  with_unfolding_all decide

/-- C4: with both date bounds equal to D, category/region/return selectors
all "All", and a price range covering every record of R, `apply_filters`
returns exactly the records of R whose date equals D, in original order:
the degenerate range is a real constraint, not the absence of one. -/
theorem apply_filters_degenerate_date (R : List Record) (D : Nat)
    (plo phi : Rat)
    (hplo : ∀ r ∈ R, plo ≤ r.price) (hphi : ∀ r ∈ R, r.price ≤ phi) :
    apply_filters R ⟨"All", "All", [D, D], plo, phi, "All"⟩ =
      R.filter (fun r => r.date == D) := by
  rw [apply_filters_eq_filter]
  refine List.filter_congr (fun a ha => ?_)
  rw [Bool.eq_iff_iff]
  simp only [matches_filters, Bool.and_eq_true, Bool.or_eq_true,
    decide_eq_true_eq, beq_iff_eq]
  constructor
  · rintro ⟨-, -, ⟨h1, h2⟩, -⟩
    omega
  · intro h
    exact ⟨Or.inl trivial, Or.inl trivial, ⟨by omega, by omega⟩,
      ⟨hplo a ha, hphi a ha⟩, Or.inl trivial⟩

/-- C4 witness: the degenerate-date theorem on the scenario with D = 9 (the
date of record 2) and the covering price range [0, 1000]. -/
theorem apply_filters_degenerate_date_witness :
    apply_filters scenarioRecords ⟨"All", "All", [9, 9], 0, 1000, "All"⟩ =
      scenarioRecords.filter (fun r => r.date == 9) :=
  apply_filters_degenerate_date scenarioRecords 9 0 1000
    (by with_unfolding_all decide) (by with_unfolding_all decide)

/-- C6: widening a range constraint — the date range and/or the price range
gets a lower-or-equal lower bound and a greater-or-equal upper bound, all
selectors unchanged — never decreases the number of filtered records. -/
theorem apply_filters_monotone_widen (R : List Record) (C C' : Filters)
    (lo hi lo' hi' : Nat)
    (hd : C.date_range = [lo, hi]) (hd' : C'.date_range = [lo', hi'])
    (hcat : C'.selected_category = C.selected_category)
    (hreg : C'.selected_region = C.selected_region)
    (hret : C'.selected_return = C.selected_return)
    (hdlo : lo' ≤ lo) (hdhi : hi ≤ hi')
    (hplo : C'.min_price ≤ C.min_price) (hphi : C.max_price ≤ C'.max_price) :
    (apply_filters R C).length ≤ (apply_filters R C').length := by
  rw [apply_filters_eq_filter, apply_filters_eq_filter]
  refine List.Sublist.length_le (List.monotone_filter_right R ?_)
  intro a h
  unfold matches_filters at h ⊢
  rw [hd] at h
  rw [hd', hcat, hreg, hret]
  simp only [Bool.and_eq_true, Bool.or_eq_true, decide_eq_true_eq,
    beq_iff_eq] at h ⊢
  obtain ⟨p1, p2, ⟨q1, q2⟩, ⟨q3, q4⟩, p5⟩ := h
  exact ⟨p1, p2, ⟨by omega, by omega⟩,
    ⟨le_trans hplo q3, le_trans q4 hphi⟩, p5⟩

/-- C6 witness: the monotonicity theorem on the scenario records, widening
the date range [5, 20] to [0, 40] and the price range [50, 100] to
[0, 1000]. -/
theorem apply_filters_monotone_widen_witness :
    (apply_filters scenarioRecords ⟨"All", "All", [5, 20], 50, 100, "All"⟩).length ≤
    (apply_filters scenarioRecords ⟨"All", "All", [0, 40], 0, 1000, "All"⟩).length :=
  apply_filters_monotone_widen scenarioRecords
    ⟨"All", "All", [5, 20], 50, 100, "All"⟩
    ⟨"All", "All", [0, 40], 0, 1000, "All"⟩
    5 20 0 40 rfl rfl rfl rfl rfl (by decide) (by decide)
    (by with_unfolding_all decide) (by with_unfolding_all decide)

/-- C10: the fully permissive constraint set — category, region and return
selectors "All", date range from the minimum to the maximum date occurring
in R, price range from the minimum to the maximum price occurring in R —
filters any non-empty R to R itself. -/
theorem apply_filters_permissive_identity (R : List Record)
    (dlo dhi : Nat) (plo phi : Rat) (hne : R ≠ [])
    (hdlo : dlo ∈ R.map (fun r => r.date) ∧ ∀ r ∈ R, dlo ≤ r.date)
    (hdhi : dhi ∈ R.map (fun r => r.date) ∧ ∀ r ∈ R, r.date ≤ dhi)
    (hplo : plo ∈ R.map (fun r => r.price) ∧ ∀ r ∈ R, plo ≤ r.price)
    (hphi : phi ∈ R.map (fun r => r.price) ∧ ∀ r ∈ R, r.price ≤ phi) :
    apply_filters R ⟨"All", "All", [dlo, dhi], plo, phi, "All"⟩ = R := by
  rw [apply_filters_eq_filter, List.filter_eq_self]
  intro a ha
  simp only [matches_filters, Bool.and_eq_true, Bool.or_eq_true,
    decide_eq_true_eq, beq_iff_eq]
  exact ⟨Or.inl trivial, Or.inl trivial, ⟨hdlo.2 a ha, hdhi.2 a ha⟩,
    ⟨hplo.2 a ha, hphi.2 a ha⟩, Or.inl trivial⟩

/-- C10 witness: the permissive identity on the scenario records, whose
date minimum/maximum are 4 and 31 and price minimum/maximum are 50
and 200. -/
theorem apply_filters_permissive_identity_witness :
    apply_filters scenarioRecords ⟨"All", "All", [4, 31], 50, 200, "All"⟩ =
      scenarioRecords :=
  apply_filters_permissive_identity scenarioRecords 4 31 50 200
    (by decide)
    (by decide)
    (by decide)
    (by with_unfolding_all decide)
    (by with_unfolding_all decide)

theorem sum_map_add_rat {α : Type} (l : List α) (f g : α → Rat) :
    (l.map (fun x => f x + g x)).sum = (l.map f).sum + (l.map g).sum := by
  induction l with
  | nil => simp
  | cons x xs ih =>
    simp only [List.map_cons, List.sum_cons, ih]
    ring

theorem sum_single_key (x : String) (c : Rat) (ks : List String)
    (hnd : ks.Nodup) (hx : x ∈ ks) :
    (ks.map (fun k => if x = k then c else 0)).sum = c := by
  induction ks with
  | nil => cases hx
  | cons k ks ih =>
    simp only [List.map_cons, List.sum_cons]
    rcases List.mem_cons.mp hx with h | h
    · subst h
      rw [if_pos rfl]
      have hnotin : x ∉ ks := (List.nodup_cons.mp hnd).1
      have hzero : (ks.map (fun k => if x = k then c else 0)).sum = 0 := by
        apply List.sum_eq_zero
        intro y hy
        obtain ⟨k', hk', hy'⟩ := List.mem_map.mp hy
        rw [← hy', if_neg]
        intro he
        exact hnotin (he ▸ hk')
      rw [hzero, add_zero]
    · have hxk : ¬ x = k := by
        intro he
        exact (List.nodup_cons.mp hnd).1 (he ▸ h)
      rw [if_neg hxk, zero_add]
      exact ih (List.nodup_cons.mp hnd).2 h

theorem sum_fibers (key : Record → String) (val : Record → Rat)
    (df : List Record) (ks : List String) (hnd : ks.Nodup)
    (hcov : ∀ r ∈ df, key r ∈ ks) :
    (ks.map (fun k => ((df.filter (fun r => key r == k)).map val).sum)).sum
      = (df.map val).sum := by
  induction df with
  | nil => simp
  | cons r rs ih =>
    have hr : key r ∈ ks := hcov r (List.mem_cons_self r rs)
    have hcov' : ∀ x ∈ rs, key x ∈ ks := fun x hx => hcov x (List.mem_cons_of_mem r hx)
    have hstep : ∀ k ∈ ks,
        ((List.filter (fun x => key x == k) (r :: rs)).map val).sum
          = (if key r = k then val r else 0)
            + ((rs.filter (fun x => key x == k)).map val).sum := by
      intro k _
      rw [List.filter_cons]
      by_cases h : key r = k
      · rw [if_pos (by simpa using h), if_pos h]
        simp
      · rw [if_neg (by simpa using h), if_neg h, zero_add]
    rw [List.map_congr_left hstep, sum_map_add_rat,
      sum_single_key (key r) (val r) ks hnd hr, ih hcov']
    simp

/-- C9: the revenue-by-category roll-up partitions total revenue: for every
record list, the sum over all groups of the grouped revenue sums equals the
`total_revenue` field of the KPI bundle of the same list. -/
theorem groupby_category_revenue_partitions_total (df : List Record) :
    ((groupby_sum (fun r => r.category) (fun r => r.revenue) df).map
        (fun p => p.2)).sum
      = (calculate_kpis df).total_revenue := by
  by_cases h : df.length = 0
  · have hnil : df = [] := List.length_eq_zero.mp h
    subst hnil
    rfl
  · unfold calculate_kpis
    rw [if_neg h]
    unfold groupby_sum
    rw [List.map_map]
    exact sum_fibers (fun r => r.category) (fun r => r.revenue) df
      ((df.map (fun r => r.category)).dedup)
      (List.nodup_dedup _)
      (fun r hr => List.mem_dedup.mpr (List.mem_map_of_mem _ hr))

/-- C8 counterexample: grouping the spec's three-record scenario by region
with sum-of-revenue gives South ↦ 50 (record 2: 50 × 1 × (1 − 0.0) = 50),
so the claimed mapping, which contains South ↦ 45, is not the computed
roll-up under any group order: the full roll-up is
[(North, 180), (South, 50), (East, 160)], the pair (South, 45) does not
occur in it, and (South, 50) does. -/
theorem groupby_region_scenario_counterexample :
    groupby_sum (fun r => r.region) (fun r => r.revenue) scenarioRecords
      = [("North", 180), ("South", 50), ("East", 160)] ∧
    ("South", (45 : Rat)) ∉
      groupby_sum (fun r => r.region) (fun r => r.revenue) scenarioRecords ∧
    ("South", (50 : Rat)) ∈
      groupby_sum (fun r => r.region) (fun r => r.revenue) scenarioRecords := by
  with_unfolding_all decide

/-- C8 amended: grouping the spec's three-record scenario by region with
sum-of-revenue aggregation (revenue fixed at construction as
unit_price × quantity × (1 − discount_fraction)) yields the mapping
North ↦ 180, South ↦ 50, East ↦ 160, with no assertion on group order. -/
theorem groupby_region_scenario_amended :
    (groupby_sum (fun r => r.region) (fun r => r.revenue) scenarioRecords).Perm
      [("North", 180), ("South", 50), ("East", 160)] := by
  have h : groupby_sum (fun r => r.region) (fun r => r.revenue) scenarioRecords
      = [("North", 180), ("South", 50), ("East", 160)] := by
    with_unfolding_all decide
  rw [h]
